import Mathlib

/-!
Verification of the note CRUD slice of passwall-server.

The handlers in `internal/api/note.go` are embedded shallowly: each Go
handler becomes a pure Lean function from a request, an ambient field key
and a store state to a result and a new store state.  A Go panic caused by
a forced context type assertion is modelled by the `HResult.panicked`
result.  Collaborator packages (`app`, `storage`, `model`, the api response
helpers) are not part of the provided source; they are modelled from the
specification and carry a doc comment saying so.  Byte strings (Go
`string` values used as data) are modelled as `List Nat`.
-/

set_option autoImplicit false

namespace Passwall

/-- Go byte strings (note contents, ciphertexts) are lists of naturals. -/
abbrev Bytes := List Nat

/-- Errors returned by collaborators carry a human-readable message. -/
structure Err where
  msg : String
deriving DecidableEq, Repr

deriving instance DecidableEq for Except

/-- Modelled from the spec: the stored record shape (`model.Note`), with
identity, timestamps and one sensitive field `note` (§3 Data Model). -/
structure Note where
  id : Nat
  createdAt : Nat
  updatedAt : Nat
  note : Bytes
deriving DecidableEq, Repr

/-- Modelled from the spec: the external projection (`model.NoteDTO`)
carrying only plaintext business fields (§3 Data Model). -/
structure NoteDTO where
  id : Nat
  createdAt : Nat
  updatedAt : Nat
  note : Bytes
deriving DecidableEq, Repr

/-- Modelled from the spec: outbound projection `model.ToNoteDTO`
(DTO Projector, §4.5). -/
def ToNoteDTO (n : Note) : NoteDTO :=
  ⟨n.id, n.createdAt, n.updatedAt, n.note⟩

/-- Modelled from the spec: inbound projection `model.ToNote` (§4.5),
producing a record with plaintext sensitive fields. -/
def ToNote (d : NoteDTO) : Note :=
  ⟨d.id, d.createdAt, d.updatedAt, d.note⟩

/-! ## Authenticated cipher core

Modelled from the spec: both the Transport Envelope Codec (§4.1) and the
Field-Level Cipher (§4.2) are authenticated symmetric ciphers over byte
strings; decryption fails on authentication failure.  Their shared core
shifts every byte by a key-derived amount and appends an authentication
tag; decryption strips the tag, unshifts, and checks the tag. -/

/-- Splits a byte string into its leading part and final byte. -/
def splitLast : Bytes → Option (Bytes × Nat)
  | [] => none
  | [a] => some ([], a)
  | a :: b :: rest =>
    match splitLast (b :: rest) with
    | some (body, t) => some (a :: body, t)
    | none => none

/-- Modelled from the spec: authenticated encryption core shared by the
transport codec and the field cipher. -/
def macEncrypt (s : Nat) (p : Bytes) : Bytes :=
  p.map (fun x => x + s) ++ [s + p.sum]

/-- Modelled from the spec: authenticated decryption core; fails with the
supplied error on authentication failure. -/
def macDecrypt (s : Nat) (e : Err) (c : Bytes) : Except Err Bytes :=
  match splitLast c with
  | none => .error e
  | some (body, tag) =>
    if tag = s + (body.map (fun x => x - s)).sum
    then .ok (body.map (fun x => x - s))
    else .error e

/-- Error reported when transport envelope authentication fails. -/
def envelopeErr : Err := ⟨"envelope authentication failed"⟩

/-- Error reported when field-level ciphertext authentication fails. -/
def fieldCipherErr : Err := ⟨"field cipher authentication failed"⟩

/-- Error reported when decrypted envelope bytes do not deserialize. -/
def deserErr : Err := ⟨"invalid serialized payload"⟩

/-- Transport keys are Go strings; the cipher uses a key-derived shift. -/
def keyNum (k : String) : Nat := (k.data.map Char.toNat).sum

/-- Modelled from the spec: transport envelope encryption (§4.1). -/
def tEncrypt (k : String) (p : Bytes) : Bytes := macEncrypt (keyNum k) p

/-- Modelled from the spec: transport envelope decryption (§4.1). -/
def tDecrypt (k : String) (c : Bytes) : Except Err Bytes :=
  macDecrypt (keyNum k) envelopeErr c

/-- Modelled from the spec: field-level encryption under the static
server-held field key (§4.2). -/
def fieldEncrypt (fk : Nat) (b : Bytes) : Bytes := macEncrypt fk b

/-- Modelled from the spec: field-level decryption (§4.2). -/
def fieldDecrypt (fk : Nat) (c : Bytes) : Except Err Bytes :=
  macDecrypt fk fieldCipherErr c

/-! ## Serialization

Modelled from the spec: the codec serializes a DTO-shaped value to a
canonical byte form before encrypting (§4.1).  A `NoteDTO` serializes to
its three numeric fields, the length of its note, then the note bytes; a
list serializes to its length followed by the items. -/

/-- Modelled from the spec: canonical serialization of one DTO. -/
def encodeNoteDTO (d : NoteDTO) : Bytes :=
  d.id :: d.createdAt :: d.updatedAt :: d.note.length :: d.note

/-- Modelled from the spec: canonical serialization of one stored record;
records and DTOs share the same four business fields, so the canonical
forms coincide. -/
def encodeNote (n : Note) : Bytes :=
  n.id :: n.createdAt :: n.updatedAt :: n.note.length :: n.note

/-- Modelled from the spec: canonical serialization of a record list. -/
def encodeNoteList (ns : List Note) : Bytes :=
  ns.length :: (ns.map encodeNote).flatten

/-- Modelled from the spec: canonical serialization of a DTO list. -/
def encodeNoteDTOList (ds : List NoteDTO) : Bytes :=
  ds.length :: (ds.map encodeNoteDTO).flatten

/-- Modelled from the spec: deserialization of one DTO; fails when the
bytes are not a canonical DTO form. -/
def decodeNoteDTO : Bytes → Except Err NoteDTO
  | a :: b :: c :: n :: rest =>
    if rest.length = n then .ok ⟨a, b, c, rest⟩ else .error deserErr
  | _ => .error deserErr

/-- Modelled from the spec: `app.EncryptJSON` applied to one DTO —
serialize, then transport-encrypt (§4.1). -/
def EncryptJSONDTO (k : String) (d : NoteDTO) : Bytes :=
  tEncrypt k (encodeNoteDTO d)

/-- Modelled from the spec: `app.EncryptJSON` applied to a record list —
serialize, then transport-encrypt (§4.1). -/
def EncryptJSONNotes (k : String) (ns : List Note) : Bytes :=
  tEncrypt k (encodeNoteList ns)

/-- Modelled from the spec: `app.DecryptJSON` into a `NoteDTO` —
authenticate and decrypt, then deserialize (§4.1). -/
def DecryptJSONDTO (k : String) (c : Bytes) : Except Err NoteDTO :=
  match tDecrypt k c with
  | .error e => .error e
  | .ok p => decodeNoteDTO p

/-- Modelled from the spec: `app.DecryptModel` on a note — field-decrypts
the sensitive `note` field (§4.2). -/
def DecryptModel (fk : Nat) (n : Note) : Except Err Note :=
  match fieldDecrypt fk n.note with
  | .error e => .error e
  | .ok p => .ok { n with note := p }

/-- The decryption loop of `FindAllNotes`: decrypt each record in order,
returning the first failure. -/
def decryptNotes (fk : Nat) : List Note → Except Err (List Note)
  | [] => .ok []
  | n :: rest =>
    match DecryptModel fk n with
    | .error e => .error e
    | .ok d =>
      match decryptNotes fk rest with
      | .error e => .error e
      | .ok ds => .ok (d :: ds)

/-! ## Requests, context and responses -/

/-- A request-context value as read by `r.Context().Value(...)`: a string,
an absent value (nil), or a value of some other dynamic type. -/
inductive CtxVal where
  | str (s : String)
  | absent
  | other
deriving DecidableEq, Repr

/-- The two context values the handlers read. -/
structure Ctx where
  schemaVal : CtxVal
  transmissionKeyVal : CtxVal
deriving DecidableEq, Repr

/-- The Go forced type assertion `v.(string)`: `none` means the assertion
panics (value absent or of another dynamic type). -/
def assertString : CtxVal → Option String
  | .str s => some s
  | _ => none

/-- The wire payload `model.Payload`, whose `Data` field carries the
transport ciphertext. -/
structure Payload where
  data : Bytes
deriving DecidableEq, Repr

/-- A request as the handlers consume it: the `{id}` path variable, the
decoded body (`none` when the body is not a valid payload), the filter
arguments produced by `SetArgs`, and the request context. -/
structure Request where
  idVar : String
  body : Option Payload
  argsStr : List String
  argsInt : List Int
  ctx : Ctx
deriving DecidableEq, Repr

/-- A response body: either the envelope (`model.Payload` serialized as
`{"data": ...}`) or a plain status object `{code, status, message}`. -/
inductive Body where
  | dataBody (data : Bytes)
  | statusBody (code : Nat) (status : String) (message : String)
deriving DecidableEq, Repr

/-- An HTTP response: status code plus body. -/
structure Response where
  code : Nat
  body : Body
deriving DecidableEq, Repr

/-- Modelled from the spec: `RespondWithJSON` on a status object. -/
def statusResponse (c : Nat) (s m : String) : Response :=
  ⟨c, .statusBody c s m⟩

/-- Modelled from the spec: `RespondWithError` — a plain JSON status
object `{code, status, message}` with status `Error`. -/
def errorResponse (c : Nat) (m : String) : Response :=
  statusResponse c "Error" m

/-- Modelled from the spec: `RespondWithJSON` on an envelope payload. -/
def dataResponse (d : Bytes) : Response :=
  ⟨200, .dataBody d⟩

/-- The outcome of running a handler: a written response, or a Go panic
raised by a forced type assertion. -/
inductive HResult where
  | resp (r : Response)
  | panicked
deriving DecidableEq, Repr

/-- Message of the 400 response for an undecodable body
(`InvalidRequestPayload`). -/
def invalidRequestPayload : String := "Invalid request payload"

/-- Message of the delete-success status response (`noteDeleteSuccess`). -/
def noteDeleteSuccess : String := "Note deleted successfully!"

/-! ## Integer id parsing

`strconv.Atoi` semantics: optional sign, decimal digits, 64-bit signed
range check; the error messages are modelled as constants. -/

/-- Accumulates decimal digits; fails on a non-digit character. -/
def digitsToNatAux : List Char → Nat → Option Nat
  | [], acc => some acc
  | c :: cs, acc =>
    if c.isDigit then digitsToNatAux cs (acc * 10 + (c.toNat - 48)) else none

/-- Digit-sequence part of `strconv.Atoi`: requires at least one digit and
enforces the 64-bit signed range. -/
def atoiCore (neg : Bool) (ds : List Char) : Except Err Int :=
  match ds with
  | [] => .error ⟨"invalid syntax"⟩
  | _ :: _ =>
    match digitsToNatAux ds 0 with
    | none => .error ⟨"invalid syntax"⟩
    | some n =>
      if neg then
        if n ≤ 2 ^ 63 then .ok (-(n : Int)) else .error ⟨"value out of range"⟩
      else
        if n ≤ 2 ^ 63 - 1 then .ok (n : Int) else .error ⟨"value out of range"⟩

/-- `strconv.Atoi`: parses an optionally signed decimal integer within the
64-bit signed range. -/
def atoi (s : String) : Except Err Int :=
  match s.data with
  | [] => .error ⟨"invalid syntax"⟩
  | c :: cs =>
    if c = '-' then atoiCore true cs
    else if c = '+' then atoiCore false cs
    else atoiCore false (c :: cs)

/-- The Go conversion `uint(id)` on a 64-bit platform: reduction modulo
`2 ^ 64`, so negative values wrap. -/
def uintOf (i : Int) : Nat := (i % (2 : Int) ^ 64).toNat

/-! ## The storage facade

The handlers consume `storage.Store` through its note-store interface.
The interface is abstract over the state type; a concrete in-memory
instance modelled from the facade contract (§4.4) follows. -/

/-- The note-store capability surface consumed by the handlers
(`storage.Store` restricted to `Notes()`), with explicit state passing:
reads leave the state alone, writes return the next state. -/
structure Store (σ : Type) where
  findAll : σ → List String → List Int → String → Except Err (List Note)
  findByID : σ → Nat → String → Except Err Note
  create : σ → Note → String → Except Err (Note × σ)
  update : σ → Note → String → Except Err (Note × σ)
  delete : σ → Nat → String → Except Err σ

/-- Modelled from the spec: `app.CreateNote` — project the DTO inbound,
encrypt its sensitive fields, then call the facade create (§2 write path,
§4.4). -/
def AppCreateNote {σ : Type} (S : Store σ) (fk : Nat) (st : σ)
    (dto : NoteDTO) (schema : String) : Except Err (Note × σ) :=
  let raw := ToNote dto
  let enc := { raw with note := fieldEncrypt fk raw.note }
  S.create st enc schema

/-- Modelled from the spec: `app.UpdateNote` — replace the found record's
sensitive field with the field-encrypted DTO plaintext, then call the
facade update (§2 write path, §4.4). -/
def AppUpdateNote {σ : Type} (S : Store σ) (fk : Nat) (st : σ)
    (n : Note) (dto : NoteDTO) (schema : String) : Except Err (Note × σ) :=
  let enc := { n with note := fieldEncrypt fk dto.note }
  S.update st enc schema

/-! ## The five handlers, embedded from `internal/api/note.go` -/

/-- `FindAllNotes` (note.go:20-57): read filter args, force-assert the
schema, facade find-all, field-decrypt each record, force-assert the
transport key, envelope-encrypt the record list. -/
def FindAllNotes {σ : Type} (S : Store σ) (fk : Nat) (r : Request) (st : σ) :
    HResult × σ :=
  match assertString r.ctx.schemaVal with
  | none => (.panicked, st)
  | some schema =>
    match S.findAll st r.argsStr r.argsInt schema with
    | .error e => (.resp (errorResponse 404 e.msg), st)
    | .ok noteList =>
      match decryptNotes fk noteList with
      | .error e => (.resp (errorResponse 500 e.msg), st)
      | .ok decList =>
        match assertString r.ctx.transmissionKeyVal with
        | none => (.panicked, st)
        | some key =>
          (.resp (dataResponse (EncryptJSONNotes key decList)), st)

/-- `FindNoteByID` (note.go:60-97): parse the id, force-assert the schema,
facade find-by-id, field-decrypt, project, force-assert the transport key,
envelope-encrypt the DTO. -/
def FindNoteByID {σ : Type} (S : Store σ) (fk : Nat) (r : Request) (st : σ) :
    HResult × σ :=
  match atoi r.idVar with
  | .error e => (.resp (errorResponse 400 e.msg), st)
  | .ok id =>
    match assertString r.ctx.schemaVal with
    | none => (.panicked, st)
    | some schema =>
      match S.findByID st (uintOf id) schema with
      | .error e => (.resp (errorResponse 404 e.msg), st)
      | .ok note =>
        match DecryptModel fk note with
        | .error e => (.resp (errorResponse 500 e.msg), st)
        | .ok dec =>
          match assertString r.ctx.transmissionKeyVal with
          | none => (.panicked, st)
          | some key =>
            (.resp (dataResponse (EncryptJSONDTO key (ToNoteDTO dec))), st)

/-- `CreateNote` (note.go:100-138): decode the body, force-assert the
transport key, envelope-decrypt the DTO, force-assert the schema, app
create, project, envelope-encrypt the created DTO. -/
def CreateNote {σ : Type} (S : Store σ) (fk : Nat) (r : Request) (st : σ) :
    HResult × σ :=
  match r.body with
  | none => (.resp (errorResponse 400 invalidRequestPayload), st)
  | some payload =>
    match assertString r.ctx.transmissionKeyVal with
    | none => (.panicked, st)
    | some key =>
      match DecryptJSONDTO key payload.data with
      | .error e => (.resp (errorResponse 500 e.msg), st)
      | .ok dto =>
        match assertString r.ctx.schemaVal with
        | none => (.panicked, st)
        | some schema =>
          match AppCreateNote S fk st dto schema with
          | .error e => (.resp (errorResponse 500 e.msg), st)
          | .ok (created, st') =>
            (.resp (dataResponse (EncryptJSONDTO key (ToNoteDTO created))), st')

/-- `UpdateNote` (note.go:141-193): parse the id, decode the body,
force-assert the transport key, envelope-decrypt the DTO, force-assert the
schema, facade find-by-id, app update, project, envelope-encrypt the
updated DTO.  Note: no `DecryptModel` call occurs on this path. -/
def UpdateNote {σ : Type} (S : Store σ) (fk : Nat) (r : Request) (st : σ) :
    HResult × σ :=
  match atoi r.idVar with
  | .error e => (.resp (errorResponse 400 e.msg), st)
  | .ok id =>
    match r.body with
    | none => (.resp (errorResponse 400 invalidRequestPayload), st)
    | some payload =>
      match assertString r.ctx.transmissionKeyVal with
      | none => (.panicked, st)
      | some key =>
        match DecryptJSONDTO key payload.data with
        | .error e => (.resp (errorResponse 500 e.msg), st)
        | .ok dto =>
          match assertString r.ctx.schemaVal with
          | none => (.panicked, st)
          | some schema =>
            match S.findByID st (uintOf id) schema with
            | .error e => (.resp (errorResponse 404 e.msg), st)
            | .ok note =>
              match AppUpdateNote S fk st note dto schema with
              | .error e => (.resp (errorResponse 500 e.msg), st)
              | .ok (updated, st') =>
                (.resp (dataResponse (EncryptJSONDTO key (ToNoteDTO updated))), st')

/-- `DeleteNote` (note.go:196-225): parse the id, force-assert the schema,
facade find-by-id, facade delete on the found record's id, respond with a
plain status object. -/
def DeleteNote {σ : Type} (S : Store σ) (r : Request) (st : σ) :
    HResult × σ :=
  match atoi r.idVar with
  | .error e => (.resp (errorResponse 400 e.msg), st)
  | .ok id =>
    match assertString r.ctx.schemaVal with
    | none => (.panicked, st)
    | some schema =>
      match S.findByID st (uintOf id) schema with
      | .error e => (.resp (errorResponse 404 e.msg), st)
      | .ok note =>
        match S.delete st note.id schema with
        | .error e => (.resp (errorResponse 404 e.msg), st)
        | .ok st' =>
          (.resp (statusResponse 200 "Success" noteDeleteSuccess), st')

/-! ## A concrete in-memory store

Modelled from the spec: the Record Access Facade contract (§4.4), realized
over per-schema lists of records. -/

/-- Error reported by the facade when a record is absent. -/
def notFoundErr : Err := ⟨"record not found"⟩

/-- Modelled from the spec: an in-memory tenant-partitioned store with a
clock used for assigned timestamps. -/
structure MemStore where
  now : Nat
  tabs : String → List Note

/-- Modelled from the spec: `FindAll` never fails and returns the
schema's records (§4.4); the filter arguments are accepted unexamined. -/
def memFindAll (st : MemStore) (_qs : List String) (_qi : List Int)
    (schema : String) : Except Err (List Note) :=
  .ok (st.tabs schema)

/-- Modelled from the spec: `FindByID` fails with `NotFoundError` when no
record with the id exists in the schema (§4.4). -/
def memFindByID (st : MemStore) (id : Nat) (schema : String) :
    Except Err Note :=
  match (st.tabs schema).find? (fun n => n.id == id) with
  | some n => .ok n
  | none => .error notFoundErr

/-- Largest id present in a record list. -/
def maxId (l : List Note) : Nat := l.foldr (fun n a => max n.id a) 0

/-- Modelled from the spec: `Create` assigns identity and timestamps
(§4.4). -/
def memCreate (st : MemStore) (n : Note) (schema : String) :
    Except Err (Note × MemStore) :=
  let created := { n with id := maxId (st.tabs schema) + 1,
                          createdAt := st.now, updatedAt := st.now }
  .ok (created,
    { st with tabs := fun s =>
        if s = schema then created :: st.tabs s else st.tabs s })

/-- Modelled from the spec: `Update` fails with `NotFoundError` when the
id is absent; otherwise it replaces the record and refreshes its
timestamp (§4.4). -/
def memUpdate (st : MemStore) (n : Note) (schema : String) :
    Except Err (Note × MemStore) :=
  if (st.tabs schema).any (fun m => m.id == n.id) then
    let upd := { n with updatedAt := st.now }
    .ok (upd,
      { st with tabs := fun s =>
          if s = schema then
            (st.tabs s).map (fun m => if m.id == n.id then upd else m)
          else st.tabs s })
  else .error notFoundErr

/-- The store left after removing the record with the given id from the
given schema. -/
def removeNote (st : MemStore) (schema : String) (id : Nat) : MemStore :=
  { st with tabs := fun s =>
      if s = schema then (st.tabs s).filter (fun m => !(m.id == id))
      else st.tabs s }

/-- Modelled from the spec: `Delete` fails with `NotFoundError` when the
id is absent; otherwise it removes the record (§4.4). -/
def memDelete (st : MemStore) (id : Nat) (schema : String) :
    Except Err MemStore :=
  if (st.tabs schema).any (fun m => m.id == id) then
    .ok (removeNote st schema id)
  else .error notFoundErr

/-- The in-memory instance of the note-store interface. -/
def memStoreOps : Store MemStore :=
  ⟨memFindAll, memFindByID, memCreate, memUpdate, memDelete⟩

/-! ## Concrete fixtures used by closed theorems and witnesses -/

/-- A record of tenant `t1` whose sensitive field is ciphertext under the
field key `5`, as the at-rest invariant requires. -/
def note1 : Note := ⟨1, 2, 3, fieldEncrypt 5 [4]⟩

/-- A store holding `note1` in schema `t1` and nothing elsewhere. -/
def st0 : MemStore := ⟨7, fun s => if s = "t1" then [note1] else []⟩

/-- A plaintext DTO used as request input. -/
def dto0 : NoteDTO := ⟨0, 0, 0, [7]⟩

/-- The wire payload carrying `dto0` envelope-encrypted under key `k`. -/
def pl0 : Payload := ⟨EncryptJSONDTO "k" dto0⟩

/-- The fixed set of human-readable messages that error responses can
carry: parse errors, the malformed-body constant, the two decryption
failures, and the facade's not-found message.  None of these constants
contains ciphertext, key material, or internal stack detail. -/
def errMsgs : List String :=
  ["invalid syntax", "value out of range", invalidRequestPayload,
   envelopeErr.msg, deserErr.msg, fieldCipherErr.msg, notFoundErr.msg]

/-- A store whose read operations fail with errors that are not
not-found conditions, used to exercise the handlers' error mapping. -/
def oddStore : Store MemStore :=
  { findAll := fun _ _ _ _ => .error ⟨"disk quota exceeded"⟩
    findByID := fun _ _ _ => .error ⟨"connection reset"⟩
    create := fun st n _ => .ok (n, st)
    update := fun st n _ => .ok (n, st)
    delete := fun st _ _ => .ok st }

/-! ## Round-trip lemmas for the transport codec -/

theorem splitLast_concat (p : Bytes) (t : Nat) :
    splitLast (p ++ [t]) = some (p, t) := by
  induction p with
  | nil => rfl
  | cons a rest ih =>
    cases rest with
    | nil => rfl
    | cons b r2 =>
      simp only [List.cons_append] at ih ⊢
      simp only [splitLast, ih]

theorem macDecrypt_macEncrypt (s : Nat) (e : Err) (p : Bytes) :
    macDecrypt s e (macEncrypt s p) = .ok p := by
  unfold macEncrypt macDecrypt
  rw [splitLast_concat]
  simp [List.map_map, Function.comp_def, Nat.add_sub_cancel]

theorem decodeNoteDTO_encodeNoteDTO (d : NoteDTO) :
    decodeNoteDTO (encodeNoteDTO d) = .ok d := by
  simp [encodeNoteDTO, decodeNoteDTO]

/-! ## Claim C2 -/

/-- C2: for every DTO `d` and transport key `k`, decrypting the transport
envelope produced by encrypting `d` under `k` yields `d` again:
`Decrypt(k, Encrypt(k, d)) = d`. -/
theorem decryptJSON_encryptJSON_roundtrip (k : String) (d : NoteDTO) :
    DecryptJSONDTO k (EncryptJSONDTO k d) = .ok d := by
  unfold DecryptJSONDTO EncryptJSONDTO tDecrypt tEncrypt
  rw [macDecrypt_macEncrypt]
  exact decodeNoteDTO_encodeNoteDTO d

/-! ## Claim C1 -/

/-- C1: tenant-context resolution is an unchecked forced cast, not a typed
validation step.  On a request whose context lacks the `schema` value
(with every earlier pipeline stage satisfiable), each of the five note
handlers panics via the forced type assertion instead of failing with a
reported ContextError response. -/
theorem missing_schema_value_panics :
    (FindAllNotes memStoreOps 5 ⟨"", none, [], [], ⟨.absent, .str "k"⟩⟩ st0).1
      = .panicked ∧
    (FindNoteByID memStoreOps 5 ⟨"1", none, [], [], ⟨.absent, .str "k"⟩⟩ st0).1
      = .panicked ∧
    (CreateNote memStoreOps 5 ⟨"", some pl0, [], [], ⟨.absent, .str "k"⟩⟩ st0).1
      = .panicked ∧
    (UpdateNote memStoreOps 5 ⟨"1", some pl0, [], [], ⟨.absent, .str "k"⟩⟩ st0).1
      = .panicked ∧
    (DeleteNote memStoreOps ⟨"1", none, [], [], ⟨.absent, .str "k"⟩⟩ st0).1
      = .panicked :=
  ⟨rfl, by decide, by decide, by decide, by decide⟩

/-! ## Claim C6 -/

/-- C6 failing input: on the update path the record obtained from the
read/write is projected and returned without any `DecryptModel` call
(compare the get path).  For a concrete update of the existing record `1`
with plaintext note `[7]`, the success envelope encrypts the DTO whose
`note` field is the stored field-ciphertext `fieldEncrypt 5 [7]`, not the
plaintext `[7]`. -/
theorem update_response_contains_field_ciphertext :
    (UpdateNote memStoreOps 5 ⟨"1", some pl0, [], [], ⟨.str "t1", .str "k"⟩⟩ st0).1
      = .resp (dataResponse (EncryptJSONDTO "k" ⟨1, 2, 7, fieldEncrypt 5 [7]⟩)) ∧
    fieldEncrypt 5 [7] ≠ [7] :=
  ⟨by decide, by decide⟩

/-! ## Claim C7: counterexample -/

/-- C7 counterexample: not every failure at an orchestrator state produces
an error response.  On a list request whose context resolution fails
(transport key absent) after a successful read and field decryption, the
handler panics: the pipeline aborts with no response at all. -/
theorem context_failure_yields_no_response :
    (FindAllNotes memStoreOps 5 ⟨"", none, [], [], ⟨.str "t1", .absent⟩⟩ st0).1
      = .panicked := by decide

/-! ## Claim C3 -/

/-- C3: an update or delete request whose id does not exist in the
request's schema (the facade lookup that precedes any mutation reports
`NotFoundError`) fails with a 404 carrying that error and leaves the store
unchanged — no partial write is committed on the not-found path. -/
theorem update_delete_not_found_leaves_store_unchanged
    (st : MemStore) (fk : Nat) (idv : String) (pl : Payload)
    (qs : List String) (qi : List Int) (schema key : String)
    (i : Int) (dto : NoteDTO) (e : Err)
    (hid : atoi idv = .ok i)
    (hdec : DecryptJSONDTO key pl.data = .ok dto)
    (hnf : memFindByID st (uintOf i) schema = .error e) :
    UpdateNote memStoreOps fk ⟨idv, some pl, qs, qi, ⟨.str schema, .str key⟩⟩ st
      = (.resp (errorResponse 404 e.msg), st) ∧
    DeleteNote memStoreOps ⟨idv, some pl, qs, qi, ⟨.str schema, .str key⟩⟩ st
      = (.resp (errorResponse 404 e.msg), st) := by
  constructor
  · simp [UpdateNote, hid, hdec, hnf, memStoreOps, assertString]
  · simp [DeleteNote, hid, hnf, memStoreOps, assertString]

/-- Witness for C3 at a concrete request: id 9 is absent from schema `t1`
of `st0`, and both mutating handlers answer 404 leaving `st0` intact. -/
theorem update_delete_not_found_witness :
    atoi "9" = .ok 9 ∧
    DecryptJSONDTO "k" pl0.data = .ok dto0 ∧
    memFindByID st0 (uintOf 9) "t1" = .error notFoundErr ∧
    (UpdateNote memStoreOps 5 ⟨"9", some pl0, [], [], ⟨.str "t1", .str "k"⟩⟩ st0
       = (.resp (errorResponse 404 notFoundErr.msg), st0) ∧
     DeleteNote memStoreOps ⟨"9", some pl0, [], [], ⟨.str "t1", .str "k"⟩⟩ st0
       = (.resp (errorResponse 404 notFoundErr.msg), st0)) :=
  ⟨by decide, by decide, by decide,
   update_delete_not_found_leaves_store_unchanged st0 5 "9" pl0 [] [] "t1" "k"
     9 dto0 notFoundErr (by decide) (by decide) (by decide)⟩

/-! ## Claim C4 -/

theorem find?_filter_out (l : List Note) (id : Nat) :
    (l.filter (fun m => !(m.id == id))).find? (fun n => n.id == id) = none := by
  rw [List.find?_eq_none]
  intro x hx
  have hpred := (List.mem_filter.mp hx).2
  simp only [Bool.not_eq_true', beq_eq_false_iff_ne, ne_eq] at hpred
  simp only [beq_iff_eq]
  exact hpred

/-- C4: for every schema, deleting a non-existent id fails with
`NotFoundError` (never silently succeeds); deleting an existing id
succeeds exactly once; and a second delete of the same id fails with
`NotFoundError` again, leaving the store unchanged. -/
theorem delete_semantics
    (st : MemStore) (idv : String) (qs : List String) (qi : List Int)
    (schema key : String) (i : Int) (e : Err) (note : Note)
    (hid : atoi idv = .ok i) :
    (memFindByID st (uintOf i) schema = .error e →
      DeleteNote memStoreOps ⟨idv, none, qs, qi, ⟨.str schema, .str key⟩⟩ st
        = (.resp (errorResponse 404 e.msg), st)) ∧
    (memFindByID st (uintOf i) schema = .ok note →
      (DeleteNote memStoreOps ⟨idv, none, qs, qi, ⟨.str schema, .str key⟩⟩ st).1
        = .resp (statusResponse 200 "Success" noteDeleteSuccess) ∧
      DeleteNote memStoreOps ⟨idv, none, qs, qi, ⟨.str schema, .str key⟩⟩
          ((DeleteNote memStoreOps ⟨idv, none, qs, qi, ⟨.str schema, .str key⟩⟩ st).2)
        = (.resp (errorResponse 404 notFoundErr.msg),
           (DeleteNote memStoreOps ⟨idv, none, qs, qi, ⟨.str schema, .str key⟩⟩ st).2)) := by
  constructor
  · intro hnf
    simp [DeleteNote, hid, hnf, memStoreOps, assertString]
  · intro h
    have hfind : (st.tabs schema).find? (fun n => n.id == uintOf i) = some note := by
      unfold memFindByID at h
      split at h
      next m hf =>
        injection h with h'
        rw [h'] at hf
        exact hf
      next hf => simp at h
    have hnid : note.id = uintOf i := by
      have := List.find?_some hfind
      simpa [beq_iff_eq] using this
    have hmem : note ∈ st.tabs schema := List.mem_of_find?_eq_some hfind
    have hany : (st.tabs schema).any (fun m => m.id == note.id) = true :=
      List.any_eq_true.mpr ⟨note, hmem, by simp⟩
    have hrun1 : DeleteNote memStoreOps ⟨idv, none, qs, qi, ⟨.str schema, .str key⟩⟩ st
        = (.resp (statusResponse 200 "Success" noteDeleteSuccess),
           removeNote st schema note.id) := by
      simp [DeleteNote, hid, assertString, memStoreOps, h, memDelete, hany]
    have htabs : (removeNote st schema note.id).tabs schema
        = (st.tabs schema).filter (fun m => !(m.id == note.id)) := by
      simp [removeNote]
    have hfind2 : memFindByID (removeNote st schema note.id) (uintOf i) schema
        = .error notFoundErr := by
      unfold memFindByID
      rw [htabs, ← hnid, find?_filter_out]
    constructor
    · rw [hrun1]
    · rw [hrun1]
      simp only
      simp [DeleteNote, hid, assertString, memStoreOps, hfind2]

/-- Witness for C4: in `st0`, deleting the absent id 9 answers 404;
deleting the present id 1 succeeds once, and repeating it answers 404
without changing the store again. -/
theorem delete_semantics_witness :
    atoi "9" = .ok 9 ∧ memFindByID st0 (uintOf 9) "t1" = .error notFoundErr ∧
    DeleteNote memStoreOps ⟨"9", none, [], [], ⟨.str "t1", .str "k"⟩⟩ st0
      = (.resp (errorResponse 404 notFoundErr.msg), st0) ∧
    atoi "1" = .ok 1 ∧ memFindByID st0 (uintOf 1) "t1" = .ok note1 ∧
    (DeleteNote memStoreOps ⟨"1", none, [], [], ⟨.str "t1", .str "k"⟩⟩ st0).1
      = .resp (statusResponse 200 "Success" noteDeleteSuccess) ∧
    DeleteNote memStoreOps ⟨"1", none, [], [], ⟨.str "t1", .str "k"⟩⟩
        ((DeleteNote memStoreOps ⟨"1", none, [], [], ⟨.str "t1", .str "k"⟩⟩ st0).2)
      = (.resp (errorResponse 404 notFoundErr.msg),
         (DeleteNote memStoreOps ⟨"1", none, [], [], ⟨.str "t1", .str "k"⟩⟩ st0).2) :=
  ⟨by decide, by decide,
   (delete_semantics st0 "9" [] [] "t1" "k" 9 notFoundErr note1 (by decide)).1 (by decide),
   by decide, by decide,
   ((delete_semantics st0 "1" [] [] "t1" "k" 1 notFoundErr note1 (by decide)).2 (by decide)).1,
   ((delete_semantics st0 "1" [] [] "t1" "k" 1 notFoundErr note1 (by decide)).2 (by decide)).2⟩

/-! ## Claim C9 -/

theorem atoiCore_ok_range (neg : Bool) (ds : List Char) (i : Int)
    (h : atoiCore neg ds = .ok i) :
    -(2 ^ 63 : Int) ≤ i ∧ i ≤ 2 ^ 63 - 1 := by
  unfold atoiCore at h
  split at h
  · exact absurd h (by simp)
  · split at h
    · exact absurd h (by simp)
    · split at h
      · split at h
        · next hn =>
          injection h with h'
          omega
        · exact absurd h (by simp)
      · split at h
        · next hn =>
          injection h with h'
          omega
        · exact absurd h (by simp)

theorem atoi_ok_range (s : String) (i : Int) (h : atoi s = .ok i) :
    -(2 ^ 63 : Int) ≤ i ∧ i ≤ 2 ^ 63 - 1 := by
  unfold atoi at h
  split at h
  · exact absurd h (by simp)
  · split at h
    · exact atoiCore_ok_range _ _ _ h
    · split at h
      · exact atoiCore_ok_range _ _ _ h
      · exact atoiCore_ok_range _ _ _ h

/-- C9: a path id that parses as a negative integer is not rejected with
400; the handler converts it with `uint(id)`, wrapping modulo `2 ^ 64`,
performs the lookup with the wrapped id, and the request surfaces as 404
not-found when the wrapped id is absent. -/
theorem negative_id_wraps_to_not_found
    (st : MemStore) (fk : Nat) (idv : String) (pl : Payload)
    (qs : List String) (qi : List Int) (schema key : String)
    (i : Int) (dto : NoteDTO) (e : Err)
    (hid : atoi idv = .ok i) (hneg : i < 0)
    (hdec : DecryptJSONDTO key pl.data = .ok dto)
    (hnf : memFindByID st (uintOf i) schema = .error e) :
    uintOf i = ((2 : Int) ^ 64 + i).toNat ∧
    FindNoteByID memStoreOps fk ⟨idv, none, qs, qi, ⟨.str schema, .str key⟩⟩ st
      = (.resp (errorResponse 404 e.msg), st) ∧
    UpdateNote memStoreOps fk ⟨idv, some pl, qs, qi, ⟨.str schema, .str key⟩⟩ st
      = (.resp (errorResponse 404 e.msg), st) ∧
    DeleteNote memStoreOps ⟨idv, none, qs, qi, ⟨.str schema, .str key⟩⟩ st
      = (.resp (errorResponse 404 e.msg), st) := by
  have hrange := atoi_ok_range idv i hid
  refine ⟨?_, ?_, ?_, ?_⟩
  · unfold uintOf; omega
  · simp [FindNoteByID, hid, hnf, memStoreOps, assertString]
  · simp [UpdateNote, hid, hdec, hnf, memStoreOps, assertString]
  · simp [DeleteNote, hid, hnf, memStoreOps, assertString]

/-- Witness for C9 with the path id `"-1"`: it parses, wraps to
`2 ^ 64 - 1`, and all three id-based handlers answer 404. -/
theorem negative_id_witness :
    atoi "-1" = .ok (-1) ∧ ((-1 : Int) < 0) ∧
    DecryptJSONDTO "k" pl0.data = .ok dto0 ∧
    memFindByID st0 (uintOf (-1)) "t1" = .error notFoundErr ∧
    (uintOf (-1) = ((2 : Int) ^ 64 + (-1)).toNat ∧
     FindNoteByID memStoreOps 5 ⟨"-1", none, [], [], ⟨.str "t1", .str "k"⟩⟩ st0
       = (.resp (errorResponse 404 notFoundErr.msg), st0) ∧
     UpdateNote memStoreOps 5 ⟨"-1", some pl0, [], [], ⟨.str "t1", .str "k"⟩⟩ st0
       = (.resp (errorResponse 404 notFoundErr.msg), st0) ∧
     DeleteNote memStoreOps ⟨"-1", none, [], [], ⟨.str "t1", .str "k"⟩⟩ st0
       = (.resp (errorResponse 404 notFoundErr.msg), st0)) :=
  ⟨by decide, by decide, by decide, by decide,
   negative_id_wraps_to_not_found st0 5 "-1" pl0 [] [] "t1" "k" (-1) dto0
     notFoundErr (by decide) (by decide) (by decide) (by decide)⟩

/-! ## Claim C10 -/

/-- C10: whatever error the storage facade's `FindAll` or `FindByID`
returns — of any kind, with any message — the handlers respond 404
carrying that error's message; no storage read error is classified as
anything other than not-found. -/
theorem storage_read_errors_map_to_404 {σ : Type} (S : Store σ) (st : σ)
    (fk : Nat) (idv : String) (pl : Payload)
    (qs : List String) (qi : List Int) (schema key : String)
    (i : Int) (dto : NoteDTO) (e : Err)
    (hid : atoi idv = .ok i)
    (hdec : DecryptJSONDTO key pl.data = .ok dto) :
    (S.findAll st qs qi schema = .error e →
      FindAllNotes S fk ⟨idv, none, qs, qi, ⟨.str schema, .str key⟩⟩ st
        = (.resp (errorResponse 404 e.msg), st)) ∧
    (S.findByID st (uintOf i) schema = .error e →
      FindNoteByID S fk ⟨idv, none, qs, qi, ⟨.str schema, .str key⟩⟩ st
        = (.resp (errorResponse 404 e.msg), st) ∧
      UpdateNote S fk ⟨idv, some pl, qs, qi, ⟨.str schema, .str key⟩⟩ st
        = (.resp (errorResponse 404 e.msg), st) ∧
      DeleteNote S ⟨idv, none, qs, qi, ⟨.str schema, .str key⟩⟩ st
        = (.resp (errorResponse 404 e.msg), st)) := by
  constructor
  · intro hfa
    simp [FindAllNotes, hfa, assertString]
  · intro hfb
    refine ⟨?_, ?_, ?_⟩
    · simp [FindNoteByID, hid, hfb, assertString]
    · simp [UpdateNote, hid, hdec, hfb, assertString]
    · simp [DeleteNote, hid, hfb, assertString]

/-- Witness for C10 with a store whose reads fail with infrastructure
errors: the handlers still answer 404 with those messages. -/
theorem storage_read_errors_witness :
    atoi "1" = .ok 1 ∧
    DecryptJSONDTO "k" pl0.data = .ok dto0 ∧
    oddStore.findAll st0 [] [] "t1" = .error ⟨"disk quota exceeded"⟩ ∧
    oddStore.findByID st0 (uintOf 1) "t1" = .error ⟨"connection reset"⟩ ∧
    FindAllNotes oddStore 5 ⟨"1", none, [], [], ⟨.str "t1", .str "k"⟩⟩ st0
      = (.resp (errorResponse 404 "disk quota exceeded"), st0) ∧
    (FindNoteByID oddStore 5 ⟨"1", none, [], [], ⟨.str "t1", .str "k"⟩⟩ st0
       = (.resp (errorResponse 404 "connection reset"), st0) ∧
     UpdateNote oddStore 5 ⟨"1", some pl0, [], [], ⟨.str "t1", .str "k"⟩⟩ st0
       = (.resp (errorResponse 404 "connection reset"), st0) ∧
     DeleteNote oddStore ⟨"1", none, [], [], ⟨.str "t1", .str "k"⟩⟩ st0
       = (.resp (errorResponse 404 "connection reset"), st0)) :=
  ⟨by decide, by decide, by decide, by decide,
   (storage_read_errors_map_to_404 oddStore st0 5 "1" pl0 [] [] "t1" "k" 1 dto0
       ⟨"disk quota exceeded"⟩ (by decide) (by decide)).1 (by decide),
   (storage_read_errors_map_to_404 oddStore st0 5 "1" pl0 [] [] "t1" "k" 1 dto0
       ⟨"connection reset"⟩ (by decide) (by decide)).2 (by decide)⟩

/-! ## Claim C5 -/

theorem assertString_eq_some (v : CtxVal) (s : String)
    (h : assertString v = some s) : v = .str s := by
  cases v with
  | str t => simp only [assertString, Option.some.injEq] at h; rw [h]
  | absent => simp [assertString] at h
  | other => simp [assertString] at h

/-- C5: every 200 body of the list, get, create and update handlers is an
envelope whose data is the transport-encrypted serialization of the
decrypted record list or of a DTO, the delete 200 body is the plain
status object, and every non-200 body of any handler is a plain error
status object. -/
theorem response_body_shapes {σ : Type} (S : Store σ) (fk : Nat)
    (r : Request) (st : σ) (resp : Response) (st' : σ) :
    (FindAllNotes S fk r st = (.resp resp, st') →
      (resp.code = 200 → ∃ key l, r.ctx.transmissionKeyVal = .str key ∧
        resp.body = .dataBody (EncryptJSONNotes key l)) ∧
      (resp.code ≠ 200 → ∃ m, resp = errorResponse resp.code m)) ∧
    (FindNoteByID S fk r st = (.resp resp, st') →
      (resp.code = 200 → ∃ key d, r.ctx.transmissionKeyVal = .str key ∧
        resp.body = .dataBody (EncryptJSONDTO key d)) ∧
      (resp.code ≠ 200 → ∃ m, resp = errorResponse resp.code m)) ∧
    (CreateNote S fk r st = (.resp resp, st') →
      (resp.code = 200 → ∃ key d, r.ctx.transmissionKeyVal = .str key ∧
        resp.body = .dataBody (EncryptJSONDTO key d)) ∧
      (resp.code ≠ 200 → ∃ m, resp = errorResponse resp.code m)) ∧
    (UpdateNote S fk r st = (.resp resp, st') →
      (resp.code = 200 → ∃ key d, r.ctx.transmissionKeyVal = .str key ∧
        resp.body = .dataBody (EncryptJSONDTO key d)) ∧
      (resp.code ≠ 200 → ∃ m, resp = errorResponse resp.code m)) ∧
    (DeleteNote S r st = (.resp resp, st') →
      (resp.code = 200 →
        resp = statusResponse 200 "Success" noteDeleteSuccess) ∧
      (resp.code ≠ 200 → ∃ m, resp = errorResponse resp.code m)) := by
  refine ⟨?_, ?_, ?_, ?_, ?_⟩
  · intro h
    unfold FindAllNotes at h
    split at h
    · simp at h
    · split at h
      · next e herr =>
        rw [Prod.mk.injEq] at h
        obtain ⟨h1, h2⟩ := h
        injection h1 with h1
        subst h1
        exact ⟨fun h200 => absurd h200 (by simp [errorResponse, statusResponse]),
               fun _ => ⟨e.msg, rfl⟩⟩
      · split at h
        · next e hdn =>
          rw [Prod.mk.injEq] at h
          obtain ⟨h1, h2⟩ := h
          injection h1 with h1
          subst h1
          exact ⟨fun h200 => absurd h200 (by simp [errorResponse, statusResponse]),
                 fun _ => ⟨e.msg, rfl⟩⟩
        · next decList hdn =>
          split at h
          · simp at h
          · next key hkey =>
            rw [Prod.mk.injEq] at h
            obtain ⟨h1, h2⟩ := h
            injection h1 with h1
            subst h1
            exact ⟨fun _ => ⟨key, decList, assertString_eq_some _ _ hkey, rfl⟩,
                   fun hne => absurd rfl hne⟩
  · intro h
    unfold FindNoteByID at h
    split at h
    · next e hae =>
      rw [Prod.mk.injEq] at h
      obtain ⟨h1, h2⟩ := h
      injection h1 with h1
      subst h1
      exact ⟨fun h200 => absurd h200 (by simp [errorResponse, statusResponse]),
             fun _ => ⟨e.msg, rfl⟩⟩
    · split at h
      · simp at h
      · split at h
        · next e hfb =>
          rw [Prod.mk.injEq] at h
          obtain ⟨h1, h2⟩ := h
          injection h1 with h1
          subst h1
          exact ⟨fun h200 => absurd h200 (by simp [errorResponse, statusResponse]),
                 fun _ => ⟨e.msg, rfl⟩⟩
        · split at h
          · next e hdm =>
            rw [Prod.mk.injEq] at h
            obtain ⟨h1, h2⟩ := h
            injection h1 with h1
            subst h1
            exact ⟨fun h200 => absurd h200 (by simp [errorResponse, statusResponse]),
                   fun _ => ⟨e.msg, rfl⟩⟩
          · next dec hdm =>
            split at h
            · simp at h
            · next key hkey =>
              rw [Prod.mk.injEq] at h
              obtain ⟨h1, h2⟩ := h
              injection h1 with h1
              subst h1
              exact ⟨fun _ => ⟨key, ToNoteDTO dec, assertString_eq_some _ _ hkey, rfl⟩,
                     fun hne => absurd rfl hne⟩
  · intro h
    unfold CreateNote at h
    split at h
    · rw [Prod.mk.injEq] at h
      obtain ⟨h1, h2⟩ := h
      injection h1 with h1
      subst h1
      exact ⟨fun h200 => absurd h200 (by simp [errorResponse, statusResponse]),
             fun _ => ⟨invalidRequestPayload, rfl⟩⟩
    · split at h
      · simp at h
      · next key hkey =>
        split at h
        · next e hdj =>
          rw [Prod.mk.injEq] at h
          obtain ⟨h1, h2⟩ := h
          injection h1 with h1
          subst h1
          exact ⟨fun h200 => absurd h200 (by simp [errorResponse, statusResponse]),
                 fun _ => ⟨e.msg, rfl⟩⟩
        · split at h
          · simp at h
          · split at h
            · next e hac =>
              rw [Prod.mk.injEq] at h
              obtain ⟨h1, h2⟩ := h
              injection h1 with h1
              subst h1
              exact ⟨fun h200 => absurd h200 (by simp [errorResponse, statusResponse]),
                     fun _ => ⟨e.msg, rfl⟩⟩
            · next created st2 hac =>
              rw [Prod.mk.injEq] at h
              obtain ⟨h1, h2⟩ := h
              injection h1 with h1
              subst h1
              exact ⟨fun _ => ⟨key, ToNoteDTO created, assertString_eq_some _ _ hkey, rfl⟩,
                     fun hne => absurd rfl hne⟩
  · intro h
    unfold UpdateNote at h
    split at h
    · next e hae =>
      rw [Prod.mk.injEq] at h
      obtain ⟨h1, h2⟩ := h
      injection h1 with h1
      subst h1
      exact ⟨fun h200 => absurd h200 (by simp [errorResponse, statusResponse]),
             fun _ => ⟨e.msg, rfl⟩⟩
    · split at h
      · rw [Prod.mk.injEq] at h
        obtain ⟨h1, h2⟩ := h
        injection h1 with h1
        subst h1
        exact ⟨fun h200 => absurd h200 (by simp [errorResponse, statusResponse]),
               fun _ => ⟨invalidRequestPayload, rfl⟩⟩
      · split at h
        · simp at h
        · next key hkey =>
          split at h
          · next e hdj =>
            rw [Prod.mk.injEq] at h
            obtain ⟨h1, h2⟩ := h
            injection h1 with h1
            subst h1
            exact ⟨fun h200 => absurd h200 (by simp [errorResponse, statusResponse]),
                   fun _ => ⟨e.msg, rfl⟩⟩
          · split at h
            · simp at h
            · split at h
              · next e hfb =>
                rw [Prod.mk.injEq] at h
                obtain ⟨h1, h2⟩ := h
                injection h1 with h1
                subst h1
                exact ⟨fun h200 => absurd h200 (by simp [errorResponse, statusResponse]),
                       fun _ => ⟨e.msg, rfl⟩⟩
              · split at h
                · next e hau =>
                  rw [Prod.mk.injEq] at h
                  obtain ⟨h1, h2⟩ := h
                  injection h1 with h1
                  subst h1
                  exact ⟨fun h200 => absurd h200 (by simp [errorResponse, statusResponse]),
                         fun _ => ⟨e.msg, rfl⟩⟩
                · next updated st2 hau =>
                  rw [Prod.mk.injEq] at h
                  obtain ⟨h1, h2⟩ := h
                  injection h1 with h1
                  subst h1
                  exact ⟨fun _ => ⟨key, ToNoteDTO updated, assertString_eq_some _ _ hkey, rfl⟩,
                         fun hne => absurd rfl hne⟩
  · intro h
    unfold DeleteNote at h
    split at h
    · next e hae =>
      rw [Prod.mk.injEq] at h
      obtain ⟨h1, h2⟩ := h
      injection h1 with h1
      subst h1
      exact ⟨fun h200 => absurd h200 (by simp [errorResponse, statusResponse]),
             fun _ => ⟨e.msg, rfl⟩⟩
    · split at h
      · simp at h
      · split at h
        · next e hfb =>
          rw [Prod.mk.injEq] at h
          obtain ⟨h1, h2⟩ := h
          injection h1 with h1
          subst h1
          exact ⟨fun h200 => absurd h200 (by simp [errorResponse, statusResponse]),
                 fun _ => ⟨e.msg, rfl⟩⟩
        · split at h
          · next e hdel =>
            rw [Prod.mk.injEq] at h
            obtain ⟨h1, h2⟩ := h
            injection h1 with h1
            subst h1
            exact ⟨fun h200 => absurd h200 (by simp [errorResponse, statusResponse]),
                   fun _ => ⟨e.msg, rfl⟩⟩
          · next st2 hdel =>
            rw [Prod.mk.injEq] at h
            obtain ⟨h1, h2⟩ := h
            injection h1 with h1
            subst h1
            exact ⟨fun _ => rfl, fun hne => absurd rfl hne⟩

/-- Witness for C5: a concrete list request succeeds with an envelope
whose data is the transport encryption of the decrypted record list. -/
theorem response_body_shapes_witness :
    FindAllNotes memStoreOps 5 ⟨"", none, [], [], ⟨.str "t1", .str "k"⟩⟩ st0
      = (.resp (dataResponse (EncryptJSONNotes "k" [⟨1, 2, 3, [4]⟩])), st0) ∧
    (∃ key l,
      (Ctx.mk (.str "t1") (.str "k")).transmissionKeyVal = .str key ∧
      (dataResponse (EncryptJSONNotes "k" [⟨1, 2, 3, [4]⟩])).body
        = .dataBody (EncryptJSONNotes key l)) :=
  ⟨rfl,
   ((response_body_shapes memStoreOps 5 ⟨"", none, [], [], ⟨.str "t1", .str "k"⟩⟩
       st0 (dataResponse (EncryptJSONNotes "k" [⟨1, 2, 3, [4]⟩])) st0).1 rfl).1 rfl⟩

/-! ## Claim C7: amended -/

/-- C7 (amended): for every request whose tenant context carries
well-typed schema and transport-key strings, every handler run terminates
with exactly one response — the first failing state short-circuits to an
error response, no panic occurs — and on every failure the store is left
unchanged, so no partial result of a later state is ever emitted. -/
theorem fail_fast_single_response {σ : Type} (S : Store σ) (fk : Nat)
    (r : Request) (st : σ) (schema key : String)
    (hs : r.ctx.schemaVal = .str schema)
    (hk : r.ctx.transmissionKeyVal = .str key) :
    (∃ resp, FindAllNotes S fk r st = (.resp resp, st)) ∧
    (∃ resp, FindNoteByID S fk r st = (.resp resp, st)) ∧
    (∃ resp st', CreateNote S fk r st = (.resp resp, st') ∧
      (resp.code ≠ 200 → st' = st)) ∧
    (∃ resp st', UpdateNote S fk r st = (.resp resp, st') ∧
      (resp.code ≠ 200 → st' = st)) ∧
    (∃ resp st', DeleteNote S r st = (.resp resp, st') ∧
      (resp.code ≠ 200 → st' = st)) := by
  refine ⟨?_, ?_, ?_, ?_, ?_⟩
  · cases hfa : S.findAll st r.argsStr r.argsInt schema with
    | error e =>
      exact ⟨errorResponse 404 e.msg,
             by simp [FindAllNotes, hs, hk, assertString, hfa]⟩
    | ok l =>
      cases hdn : decryptNotes fk l with
      | error e =>
        exact ⟨errorResponse 500 e.msg,
               by simp [FindAllNotes, hs, hk, assertString, hfa, hdn]⟩
      | ok dl =>
        exact ⟨dataResponse (EncryptJSONNotes key dl),
               by simp [FindAllNotes, hs, hk, assertString, hfa, hdn]⟩
  · cases hid : atoi r.idVar with
    | error e => exact ⟨errorResponse 400 e.msg, by simp [FindNoteByID, hid]⟩
    | ok i =>
      cases hfb : S.findByID st (uintOf i) schema with
      | error e =>
        exact ⟨errorResponse 404 e.msg,
               by simp [FindNoteByID, hs, hk, assertString, hid, hfb]⟩
      | ok note =>
        cases hdm : DecryptModel fk note with
        | error e =>
          exact ⟨errorResponse 500 e.msg,
                 by simp [FindNoteByID, hs, hk, assertString, hid, hfb, hdm]⟩
        | ok dec =>
          exact ⟨dataResponse (EncryptJSONDTO key (ToNoteDTO dec)),
                 by simp [FindNoteByID, hs, hk, assertString, hid, hfb, hdm]⟩
  · cases hb : r.body with
    | none =>
      exact ⟨errorResponse 400 invalidRequestPayload, st,
             by simp [CreateNote, hb], fun _ => rfl⟩
    | some pl =>
      cases hdj : DecryptJSONDTO key pl.data with
      | error e =>
        exact ⟨errorResponse 500 e.msg, st,
               by simp [CreateNote, hb, hk, assertString, hdj], fun _ => rfl⟩
      | ok dto =>
        cases hac : AppCreateNote S fk st dto schema with
        | error e =>
          exact ⟨errorResponse 500 e.msg, st,
                 by simp [CreateNote, hb, hs, hk, assertString, hdj, hac],
                 fun _ => rfl⟩
        | ok pr =>
          obtain ⟨created, st2⟩ := pr
          exact ⟨dataResponse (EncryptJSONDTO key (ToNoteDTO created)), st2,
                 by simp [CreateNote, hb, hs, hk, assertString, hdj, hac],
                 fun hne => absurd rfl hne⟩
  · cases hid : atoi r.idVar with
    | error e =>
      exact ⟨errorResponse 400 e.msg, st, by simp [UpdateNote, hid], fun _ => rfl⟩
    | ok i =>
      cases hb : r.body with
      | none =>
        exact ⟨errorResponse 400 invalidRequestPayload, st,
               by simp [UpdateNote, hid, hb], fun _ => rfl⟩
      | some pl =>
        cases hdj : DecryptJSONDTO key pl.data with
        | error e =>
          exact ⟨errorResponse 500 e.msg, st,
                 by simp [UpdateNote, hid, hb, hk, assertString, hdj],
                 fun _ => rfl⟩
        | ok dto =>
          cases hfb : S.findByID st (uintOf i) schema with
          | error e =>
            exact ⟨errorResponse 404 e.msg, st,
                   by simp [UpdateNote, hid, hb, hs, hk, assertString, hdj, hfb],
                   fun _ => rfl⟩
          | ok note =>
            cases hau : AppUpdateNote S fk st note dto schema with
            | error e =>
              exact ⟨errorResponse 500 e.msg, st,
                     by simp [UpdateNote, hid, hb, hs, hk, assertString, hdj, hfb, hau],
                     fun _ => rfl⟩
            | ok pr =>
              obtain ⟨updated, st2⟩ := pr
              exact ⟨dataResponse (EncryptJSONDTO key (ToNoteDTO updated)), st2,
                     by simp [UpdateNote, hid, hb, hs, hk, assertString, hdj, hfb, hau],
                     fun hne => absurd rfl hne⟩
  · cases hid : atoi r.idVar with
    | error e =>
      exact ⟨errorResponse 400 e.msg, st, by simp [DeleteNote, hid], fun _ => rfl⟩
    | ok i =>
      cases hfb : S.findByID st (uintOf i) schema with
      | error e =>
        exact ⟨errorResponse 404 e.msg, st,
               by simp [DeleteNote, hid, hs, assertString, hfb], fun _ => rfl⟩
      | ok note =>
        cases hdel : S.delete st note.id schema with
        | error e =>
          exact ⟨errorResponse 404 e.msg, st,
                 by simp [DeleteNote, hid, hs, assertString, hfb, hdel],
                 fun _ => rfl⟩
        | ok st2 =>
          exact ⟨statusResponse 200 "Success" noteDeleteSuccess, st2,
                 by simp [DeleteNote, hid, hs, assertString, hfb, hdel],
                 fun hne => absurd rfl hne⟩

/-- Witness for C7 at a concrete request with well-typed context values:
all five handlers emit exactly one response. -/
theorem fail_fast_single_response_witness :
    (∃ resp, FindAllNotes memStoreOps 5
       ⟨"1", some pl0, [], [], ⟨.str "t1", .str "k"⟩⟩ st0 = (.resp resp, st0)) ∧
    (∃ resp, FindNoteByID memStoreOps 5
       ⟨"1", some pl0, [], [], ⟨.str "t1", .str "k"⟩⟩ st0 = (.resp resp, st0)) ∧
    (∃ resp st', CreateNote memStoreOps 5
       ⟨"1", some pl0, [], [], ⟨.str "t1", .str "k"⟩⟩ st0 = (.resp resp, st') ∧
      (resp.code ≠ 200 → st' = st0)) ∧
    (∃ resp st', UpdateNote memStoreOps 5
       ⟨"1", some pl0, [], [], ⟨.str "t1", .str "k"⟩⟩ st0 = (.resp resp, st') ∧
      (resp.code ≠ 200 → st' = st0)) ∧
    (∃ resp st', DeleteNote memStoreOps
       ⟨"1", some pl0, [], [], ⟨.str "t1", .str "k"⟩⟩ st0 = (.resp resp, st') ∧
      (resp.code ≠ 200 → st' = st0)) :=
  fail_fast_single_response memStoreOps 5
    ⟨"1", some pl0, [], [], ⟨.str "t1", .str "k"⟩⟩ st0 "t1" "k" rfl rfl

/-! ## Claim C8 -/

theorem macDecrypt_error (s : Nat) (e0 e : Err) (c : Bytes)
    (h : macDecrypt s e0 c = .error e) : e = e0 := by
  unfold macDecrypt at h
  split at h
  · injection h with h'
    exact h'.symm
  · split at h
    · exact absurd h (by simp)
    · injection h with h'
      exact h'.symm

theorem decodeNoteDTO_error (p : Bytes) (e : Err)
    (h : decodeNoteDTO p = .error e) : e = deserErr := by
  unfold decodeNoteDTO at h
  split at h
  · split at h
    · exact absurd h (by simp)
    · injection h with h'
      exact h'.symm
  · injection h with h'
    exact h'.symm

theorem DecryptJSONDTO_error (k : String) (c : Bytes) (e : Err)
    (h : DecryptJSONDTO k c = .error e) : e = envelopeErr ∨ e = deserErr := by
  unfold DecryptJSONDTO at h
  split at h
  · next e2 ht =>
    left
    injection h with h'
    rw [← h']
    exact macDecrypt_error _ _ _ _ ht
  · right
    exact decodeNoteDTO_error _ _ h

theorem DecryptModel_error (fk : Nat) (n : Note) (e : Err)
    (h : DecryptModel fk n = .error e) : e = fieldCipherErr := by
  unfold DecryptModel at h
  split at h
  · next e2 hfd =>
    injection h with h'
    rw [← h']
    exact macDecrypt_error _ _ _ _ hfd
  · exact absurd h (by simp)

theorem decryptNotes_error (fk : Nat) (l : List Note) (e : Err)
    (h : decryptNotes fk l = .error e) : e = fieldCipherErr := by
  induction l with
  | nil => exact absurd h (by simp [decryptNotes])
  | cons n rest ih =>
    unfold decryptNotes at h
    split at h
    · next e2 hdm =>
      injection h with h'
      rw [← h']
      exact DecryptModel_error _ _ _ hdm
    · split at h
      · next e2 hdr =>
        injection h with h'
        rw [h'] at hdr
        exact ih hdr
      · exact absurd h (by simp)

theorem memFindByID_error (st : MemStore) (id : Nat) (schema : String)
    (e : Err) (h : memFindByID st id schema = .error e) : e = notFoundErr := by
  unfold memFindByID at h
  split at h
  · exact absurd h (by simp)
  · injection h with h'
    exact h'.symm

theorem memUpdate_error (st : MemStore) (n : Note) (schema : String)
    (e : Err) (h : memUpdate st n schema = .error e) : e = notFoundErr := by
  unfold memUpdate at h
  split at h
  · exact absurd h (by simp)
  · injection h with h'
    exact h'.symm

theorem memDelete_error (st : MemStore) (id : Nat) (schema : String)
    (e : Err) (h : memDelete st id schema = .error e) : e = notFoundErr := by
  unfold memDelete at h
  split at h
  · exact absurd h (by simp)
  · injection h with h'
    exact h'.symm

theorem atoiCore_error (neg : Bool) (ds : List Char) (e : Err)
    (h : atoiCore neg ds = .error e) :
    e.msg = "invalid syntax" ∨ e.msg = "value out of range" := by
  unfold atoiCore at h
  split at h
  · left
    injection h with h'
    rw [← h']
  · split at h
    · left
      injection h with h'
      rw [← h']
    · split at h
      · split at h
        · exact absurd h (by simp)
        · right
          injection h with h'
          rw [← h']
      · split at h
        · exact absurd h (by simp)
        · right
          injection h with h'
          rw [← h']

theorem atoi_error (s : String) (e : Err) (h : atoi s = .error e) :
    e.msg = "invalid syntax" ∨ e.msg = "value out of range" := by
  unfold atoi at h
  split at h
  · left
    injection h with h'
    rw [← h']
  · split at h
    · exact atoiCore_error _ _ _ h
    · split at h
      · exact atoiCore_error _ _ _ h
      · exact atoiCore_error _ _ _ h

theorem atoi_error_mem (s : String) (e : Err) (h : atoi s = .error e) :
    e.msg ∈ errMsgs := by
  rcases atoi_error s e h with h' | h' <;> rw [h'] <;> decide

/-- C8: over the in-memory store and the modelled collaborators, every
error response of every handler is a plain status object whose message is
drawn from the fixed constant set `errMsgs`; in particular no error
message carries ciphertext, key material, or stack detail, for all inputs
and all failure kinds. -/
theorem error_messages_fixed_set (fk : Nat) (r : Request) (st : MemStore)
    (resp : Response) (st' : MemStore) :
    (FindAllNotes memStoreOps fk r st = (.resp resp, st') → resp.code ≠ 200 →
      ∃ m, resp = errorResponse resp.code m ∧ m ∈ errMsgs) ∧
    (FindNoteByID memStoreOps fk r st = (.resp resp, st') → resp.code ≠ 200 →
      ∃ m, resp = errorResponse resp.code m ∧ m ∈ errMsgs) ∧
    (CreateNote memStoreOps fk r st = (.resp resp, st') → resp.code ≠ 200 →
      ∃ m, resp = errorResponse resp.code m ∧ m ∈ errMsgs) ∧
    (UpdateNote memStoreOps fk r st = (.resp resp, st') → resp.code ≠ 200 →
      ∃ m, resp = errorResponse resp.code m ∧ m ∈ errMsgs) ∧
    (DeleteNote memStoreOps r st = (.resp resp, st') → resp.code ≠ 200 →
      ∃ m, resp = errorResponse resp.code m ∧ m ∈ errMsgs) := by
  refine ⟨?_, ?_, ?_, ?_, ?_⟩
  · intro h _
    unfold FindAllNotes at h
    split at h
    · simp at h
    · split at h
      · next e herr => simp [memStoreOps, memFindAll] at herr
      · split at h
        · next e hdn =>
          rw [Prod.mk.injEq] at h
          obtain ⟨h1, h2⟩ := h
          injection h1 with h1
          subst h1
          refine ⟨e.msg, rfl, ?_⟩
          rw [decryptNotes_error _ _ _ hdn]
          decide
        · split at h
          · simp at h
          · rw [Prod.mk.injEq] at h
            obtain ⟨h1, h2⟩ := h
            injection h1 with h1
            subst h1
            exact absurd rfl (by assumption)
  · intro h _
    unfold FindNoteByID at h
    split at h
    · next e hae =>
      rw [Prod.mk.injEq] at h
      obtain ⟨h1, h2⟩ := h
      injection h1 with h1
      subst h1
      exact ⟨e.msg, rfl, atoi_error_mem _ _ hae⟩
    · split at h
      · simp at h
      · split at h
        · next e hfb =>
          rw [Prod.mk.injEq] at h
          obtain ⟨h1, h2⟩ := h
          injection h1 with h1
          subst h1
          refine ⟨e.msg, rfl, ?_⟩
          rw [memFindByID_error _ _ _ _ hfb]
          decide
        · split at h
          · next e hdm =>
            rw [Prod.mk.injEq] at h
            obtain ⟨h1, h2⟩ := h
            injection h1 with h1
            subst h1
            refine ⟨e.msg, rfl, ?_⟩
            rw [DecryptModel_error _ _ _ hdm]
            decide
          · split at h
            · simp at h
            · rw [Prod.mk.injEq] at h
              obtain ⟨h1, h2⟩ := h
              injection h1 with h1
              subst h1
              exact absurd rfl (by assumption)
  · intro h _
    unfold CreateNote at h
    split at h
    · rw [Prod.mk.injEq] at h
      obtain ⟨h1, h2⟩ := h
      injection h1 with h1
      subst h1
      exact ⟨invalidRequestPayload, rfl, by decide⟩
    · split at h
      · simp at h
      · split at h
        · next e hdj =>
          rw [Prod.mk.injEq] at h
          obtain ⟨h1, h2⟩ := h
          injection h1 with h1
          subst h1
          refine ⟨e.msg, rfl, ?_⟩
          rcases DecryptJSONDTO_error _ _ _ hdj with h' | h' <;> rw [h'] <;> decide
        · split at h
          · simp at h
          · split at h
            · next e hac => simp [AppCreateNote, memStoreOps, memCreate] at hac
            · rw [Prod.mk.injEq] at h
              obtain ⟨h1, h2⟩ := h
              injection h1 with h1
              subst h1
              exact absurd rfl (by assumption)
  · intro h _
    unfold UpdateNote at h
    split at h
    · next e hae =>
      rw [Prod.mk.injEq] at h
      obtain ⟨h1, h2⟩ := h
      injection h1 with h1
      subst h1
      exact ⟨e.msg, rfl, atoi_error_mem _ _ hae⟩
    · split at h
      · rw [Prod.mk.injEq] at h
        obtain ⟨h1, h2⟩ := h
        injection h1 with h1
        subst h1
        exact ⟨invalidRequestPayload, rfl, by decide⟩
      · split at h
        · simp at h
        · split at h
          · next e hdj =>
            rw [Prod.mk.injEq] at h
            obtain ⟨h1, h2⟩ := h
            injection h1 with h1
            subst h1
            refine ⟨e.msg, rfl, ?_⟩
            rcases DecryptJSONDTO_error _ _ _ hdj with h' | h' <;> rw [h'] <;> decide
          · split at h
            · simp at h
            · split at h
              · next e hfb =>
                rw [Prod.mk.injEq] at h
                obtain ⟨h1, h2⟩ := h
                injection h1 with h1
                subst h1
                refine ⟨e.msg, rfl, ?_⟩
                rw [memFindByID_error _ _ _ _ hfb]
                decide
              · split at h
                · next e hau =>
                  rw [Prod.mk.injEq] at h
                  obtain ⟨h1, h2⟩ := h
                  injection h1 with h1
                  subst h1
                  refine ⟨e.msg, rfl, ?_⟩
                  rw [memUpdate_error _ _ _ _ hau]
                  decide
                · rw [Prod.mk.injEq] at h
                  obtain ⟨h1, h2⟩ := h
                  injection h1 with h1
                  subst h1
                  exact absurd rfl (by assumption)
  · intro h _
    unfold DeleteNote at h
    split at h
    · next e hae =>
      rw [Prod.mk.injEq] at h
      obtain ⟨h1, h2⟩ := h
      injection h1 with h1
      subst h1
      exact ⟨e.msg, rfl, atoi_error_mem _ _ hae⟩
    · split at h
      · simp at h
      · split at h
        · next e hfb =>
          rw [Prod.mk.injEq] at h
          obtain ⟨h1, h2⟩ := h
          injection h1 with h1
          subst h1
          refine ⟨e.msg, rfl, ?_⟩
          rw [memFindByID_error _ _ _ _ hfb]
          decide
        · split at h
          · next e hdel =>
            rw [Prod.mk.injEq] at h
            obtain ⟨h1, h2⟩ := h
            injection h1 with h1
            subst h1
            refine ⟨e.msg, rfl, ?_⟩
            rw [memDelete_error _ _ _ _ hdel]
            decide
          · rw [Prod.mk.injEq] at h
            obtain ⟨h1, h2⟩ := h
            injection h1 with h1
            subst h1
            exact absurd rfl (by assumption)

/-- Witness for C8: a concrete get request with an unparsable id draws its
400 message from the fixed constant set. -/
theorem error_messages_fixed_set_witness :
    FindNoteByID memStoreOps 5 ⟨"x", none, [], [], ⟨.str "t1", .str "k"⟩⟩ st0
      = (.resp (errorResponse 400 "invalid syntax"), st0) ∧
    (400 : Nat) ≠ 200 ∧
    (∃ m, errorResponse 400 "invalid syntax"
        = errorResponse (errorResponse 400 "invalid syntax").code m ∧
      m ∈ errMsgs) :=
  ⟨rfl, by decide,
   (error_messages_fixed_set 5 ⟨"x", none, [], [], ⟨.str "t1", .str "k"⟩⟩ st0
       (errorResponse 400 "invalid syntax") st0).2.1 rfl (by decide)⟩

end Passwall
